import Mathlib

/-!
Verification of the query-construction, pagination and CRUD layer of the
`library-database-back-end` repository (an Express/Mongoose library-management
REST backend).

The JavaScript source is shallowly embedded: Mongo-style documents become
association lists of string keys and JSON-ish values; each route handler
becomes a pure Lean function from its inputs (query/body/stored documents) to
a response and the resulting stored state; the `utils/dbUtils.js` helpers
(`buildFilter`, `buildSearchFilter`, `getPaginationParams`,
`formatPaginationResponse`, `handleDBError`, `isValidObjectId`) become Lean
functions of the same shape.  JavaScript numbers are modelled on the integer
fragment: `parseInt` parses an optionally signed run of leading decimal
digits (the hexadecimal `0x` prefix and float inputs beyond their integer
part are outside the modelled fragment), `NaN` is `Option.none`, and the
`x || d` fallback treats `0` and `NaN` as falsy, exactly as in JavaScript.
-/

namespace Libra

/-- JSON-ish values stored in documents and filters.  `orRegex fields term`
stands for the Mongo value `[{f: {$regex: term, $options: 'i'}} | f ∈ fields]`
that the routes place under the `$or` key. -/
inductive JVal where
  | str (s : String)
  | bool (b : Bool)
  | num (n : Int)
  | null
  | orRegex (fields : List String) (term : String)
deriving DecidableEq, Repr

/-- A Mongo-style document / JavaScript object: an association list from
string keys to values (keys unique by construction of the operations). -/
abbrev JDoc := List (String × JVal)

/-- Read a key from a document (`doc[k]`); `none` models `undefined`. -/
def getKey (doc : JDoc) (k : String) : Option JVal :=
  match doc with
  | [] => none
  | kv :: rest => if kv.1 = k then some kv.2 else getKey rest k

/-- `doc[k] = v`: replace the value at `k` in place if the key is present,
otherwise append the pair, as JavaScript property assignment does. -/
def setKey (doc : JDoc) (k : String) (v : JVal) : JDoc :=
  match doc with
  | [] => [(k, v)]
  | kv :: rest => if kv.1 = k then (k, v) :: rest else kv :: setKey rest k v

/-- Remove a key from a document (rest/spread omitting `k`). -/
def removeKey (doc : JDoc) (k : String) : JDoc :=
  match doc with
  | [] => []
  | kv :: rest => if kv.1 = k then removeKey rest k else kv :: removeKey rest k

/-- The key set of a document. -/
def keys (doc : JDoc) : List String := doc.map (·.1)

/-- Apply an update object to a document: each key of `upd` overwrites the
corresponding field of `doc` (Mongoose `findByIdAndUpdate` `$set` semantics). -/
def applyUpdate (doc : JDoc) (upd : JDoc) : JDoc :=
  upd.foldl (fun d kv => setKey d kv.1 kv.2) doc

/-- Exclusion projection (`.select('-password -__v')`): drop the named keys. -/
def omitKeys (doc : JDoc) (ks : List String) : JDoc :=
  match doc with
  | [] => []
  | kv :: rest => if kv.1 ∈ ks then omitKeys rest ks else kv :: omitKeys rest ks

/-- Inclusion projection (`populate(path, 'f g h')`): keep only the named keys. -/
def pickKeys (doc : JDoc) (ks : List String) : JDoc :=
  match doc with
  | [] => []
  | kv :: rest => if kv.1 ∈ ks then kv :: pickKeys rest ks else pickKeys rest ks

@[simp] theorem getKey_nil (k : String) : getKey [] k = none := rfl

@[simp] theorem getKey_cons (kv : String × JVal) (rest : JDoc) (k : String) :
    getKey (kv :: rest) k = if kv.1 = k then some kv.2 else getKey rest k := rfl

theorem getKey_setKey_self (doc : JDoc) (k : String) (v : JVal) :
    getKey (setKey doc k v) k = some v := by
  induction doc with
  | nil => simp [setKey]
  | cons kv rest ih =>
      by_cases h : kv.1 = k
      · simp [setKey, h]
      · simp [setKey, h, ih]

theorem getKey_setKey_ne (doc : JDoc) (k k' : String) (v : JVal) (h : k' ≠ k) :
    getKey (setKey doc k v) k' = getKey doc k' := by
  have h' : k ≠ k' := Ne.symm h
  induction doc with
  | nil => simp [setKey, h']
  | cons kv rest ih =>
      by_cases hk : kv.1 = k
      · subst hk
        simp [setKey, h']
      · simp [setKey, hk, ih]

theorem getKey_removeKey_ne (doc : JDoc) (k k' : String) (h : k' ≠ k) :
    getKey (removeKey doc k) k' = getKey doc k' := by
  induction doc with
  | nil => rfl
  | cons kv rest ih =>
      by_cases hk : kv.1 = k
      · subst hk
        simp [removeKey, Ne.symm h, ih]
      · simp [removeKey, hk, ih]

theorem getKey_removeKey_self (doc : JDoc) (k : String) :
    getKey (removeKey doc k) k = none := by
  induction doc with
  | nil => rfl
  | cons kv rest ih =>
      by_cases hk : kv.1 = k
      · simp [removeKey, hk, ih]
      · simp [removeKey, hk, ih]

theorem keys_removeKey (doc : JDoc) (k : String) :
    ¬ k ∈ keys (removeKey doc k) := by
  induction doc with
  | nil => simp [removeKey, keys]
  | cons kv rest ih =>
      by_cases hk : kv.1 = k
      · simpa [removeKey, hk] using ih
      · simp only [removeKey, hk, if_false, keys, List.map_cons, List.mem_cons]
        push_neg
        exact ⟨fun hh => hk hh.symm, by simpa [keys] using ih⟩

/-- A key that an update object does not mention is unchanged by the update. -/
theorem getKey_applyUpdate_not_mem (doc : JDoc) (upd : JDoc) (k : String)
    (h : ¬ k ∈ keys upd) : getKey (applyUpdate doc upd) k = getKey doc k := by
  induction upd generalizing doc with
  | nil => rfl
  | cons kv rest ih =>
      simp only [keys, List.map_cons, List.mem_cons] at h
      push_neg at h
      have step : getKey (setKey doc kv.1 kv.2) k = getKey doc k :=
        getKey_setKey_ne doc kv.1 k kv.2 h.1
      calc getKey (applyUpdate (setKey doc kv.1 kv.2) rest) k
          = getKey (setKey doc kv.1 kv.2) k := ih _ (by simpa [keys] using h.2)
        _ = getKey doc k := step

/-- A key that an update object with distinct keys does mention takes the
update's value. -/
theorem getKey_applyUpdate_mem (doc : JDoc) (upd : JDoc) (k : String) (v : JVal)
    (hnd : (keys upd).Nodup) (h : (k, v) ∈ upd) :
    getKey (applyUpdate doc upd) k = some v := by
  induction upd generalizing doc with
  | nil => cases h
  | cons kv rest ih =>
      simp only [keys, List.map_cons, List.nodup_cons] at hnd
      rcases List.mem_cons.mp h with h1 | h2
      · subst h1
        have : ¬ k ∈ keys rest := by simpa [keys] using hnd.1
        calc getKey (applyUpdate (setKey doc k v) rest) k
            = getKey (setKey doc k v) k := getKey_applyUpdate_not_mem _ _ _ this
          _ = some v := getKey_setKey_self doc k v
      · exact ih _ (by simpa [keys] using hnd.2) h2

theorem keys_omitKeys_not_mem (doc : JDoc) (ks : List String) (k : String)
    (hk : k ∈ ks) : ¬ k ∈ keys (omitKeys doc ks) := by
  induction doc with
  | nil => simp [omitKeys, keys]
  | cons kv rest ih =>
      by_cases hc : kv.1 ∈ ks
      · simpa [omitKeys, hc] using ih
      · simp only [omitKeys, hc, if_false, keys, List.map_cons, List.mem_cons]
        push_neg
        refine ⟨fun hh => ?_, by simpa [keys] using ih⟩
        rw [hh] at hk
        exact hc hk

theorem keys_pickKeys_mem (doc : JDoc) (ks : List String) (k : String)
    (hmem : k ∈ keys (pickKeys doc ks)) : k ∈ ks := by
  induction doc with
  | nil => simp [pickKeys, keys] at hmem
  | cons kv rest ih =>
      by_cases hc : kv.1 ∈ ks
      · simp only [pickKeys, hc, if_true, keys, List.map_cons, List.mem_cons] at hmem
        rcases hmem with h1 | h2
        · rw [h1]; exact hc
        · exact ih (by simpa [keys] using h2)
      · exact ih (by simpa [pickKeys, hc, keys] using hmem)

/-! ## JavaScript numeric helpers (integer fragment) -/

/-- JavaScript whitespace for the purpose of numeric-string trimming. -/
def isSpaceChar (c : Char) : Bool :=
  c = ' ' || c = '\t' || c = '\n' || c = '\r'

/-- Trim whitespace from both ends of a character list. -/
def trimChars (cs : List Char) : List Char :=
  ((cs.dropWhile isSpaceChar).reverse.dropWhile isSpaceChar).reverse

/-- Value of a run of leading decimal digits; `none` if there is none. -/
def leadingDigitsVal (cs : List Char) : Option Nat :=
  let ds := cs.takeWhile Char.isDigit
  if ds.isEmpty then none
  else some (ds.foldl (fun acc c => 10 * acc + (c.toNat - 48)) 0)

/-- JavaScript `parseInt` on the decimal-integer fragment: trim whitespace,
optional sign, then the leading digit run; `none` models `NaN`. -/
def jsParseInt (s : String) : Option Int :=
  match s.data.dropWhile isSpaceChar with
  | '-' :: rest => (leadingDigitsVal rest).map (fun n => -(n : Int))
  | '+' :: rest => (leadingDigitsVal rest).map (fun n => (n : Int))
  | cs => (leadingDigitsVal cs).map (fun n => (n : Int))

/-- `parseInt(query.x)` where the input may be `undefined`
(`parseInt(undefined)` is `NaN`). -/
def jsParseIntOpt : Option String → Option Int
  | none => none
  | some s => jsParseInt s

/-- JavaScript `Number` coercion on the exact-integer fragment: an empty
(trimmed) string is `0`, an optionally signed all-digit string is its value,
anything else is modelled as `NaN`. -/
def jsToNumber (s : String) : Option Int :=
  match trimChars s.data with
  | [] => some 0
  | '-' :: rest =>
      if rest ≠ [] ∧ rest.all Char.isDigit then (leadingDigitsVal rest).map (fun n => -(n : Int)) else none
  | '+' :: rest =>
      if rest ≠ [] ∧ rest.all Char.isDigit then (leadingDigitsVal rest).map (fun n => (n : Int)) else none
  | cs =>
      if cs.all Char.isDigit then (leadingDigitsVal cs).map (fun n => (n : Int)) else none

/-- JavaScript `x || d` on numbers: `NaN` and `0` are falsy. -/
def jsOrElse (v : Option Int) (d : Int) : Int :=
  match v with
  | none => d
  | some n => if n = 0 then d else n

/-- JavaScript subtraction where either side may be `NaN`. -/
def jsSub (a b : Option Int) : Option Int :=
  match a, b with
  | some x, some y => some (x - y)
  | _, _ => none

/-- JavaScript multiplication where either side may be `NaN`. -/
def jsMul (a b : Option Int) : Option Int :=
  match a, b with
  | some x, some y => some (x * y)
  | _, _ => none

/-- Ceiling division for integers, defined for a positive divisor
(`Math.ceil(a / b)`). -/
def ceilDiv (a b : Int) : Int := -((-a).ediv b)

/-- `Math.ceil(a / b)` where either operand may be `NaN`; a zero divisor
(whose true JavaScript result is an infinity) is outside the modelled
fragment and mapped to `none`. -/
def jsCeilDiv (a b : Option Int) : Option Int :=
  match a, b with
  | some x, some y => if y = 0 then none else some (ceilDiv x y)
  | _, _ => none

/-- Truthiness of an optional string (`undefined` and `''` are falsy). -/
def truthyStr : Option String → Bool
  | none => false
  | some s => s ≠ ""

/-- A raw JavaScript value that is either a number (a destructuring default)
or a string (an actual query parameter). -/
inductive JPrim where
  | num (n : Int)
  | str (s : String)
deriving DecidableEq, Repr

/-- `const { x = d } = req.query`: the parameter if present, else the numeric
default. -/
def jprimOfQuery (q : Option String) (d : Int) : JPrim :=
  match q with
  | none => .num d
  | some s => .str s

/-- `parseInt` applied to a string-or-number value. -/
def jsParseIntPrim : JPrim → Option Int
  | .num n => some n
  | .str s => jsParseInt s

/-- `Number` coercion of a string-or-number value. -/
def jsToNumberPrim : JPrim → Option Int
  | .num n => some n
  | .str s => jsToNumber s

/-! ## `utils/dbUtils.js` -/

/-- `buildFilter`'s per-value coercion: the strings `'true'` and `'false'`
become booleans, every other value passes through unchanged. -/
def coerceBoolStr (v : String) : JVal :=
  if v = "true" then .bool true
  else if v = "false" then .bool false
  else .str v

/-- One iteration of `buildFilter`'s `forEach`: copy the field if it is
defined in the input, coercing boolean-looking strings. -/
def buildFilterStep (queryParams : String → Option String) (filter : JDoc) (field : String) : JDoc :=
  match queryParams field with
  | none => filter
  | some v => setKey filter field (coerceBoolStr v)

/-- `buildFilter(queryParams, allowedFields)`: iterate over the allow-list and
copy each parameter that is defined in the input.  The query parameters are
modelled as a lookup function (`none` = `undefined`). -/
def buildFilter (queryParams : String → Option String) (allowedFields : List String) : JDoc :=
  allowedFields.foldl (buildFilterStep queryParams) []

/-- `buildSearchFilter(searchTerm, searchFields)`: an `$or` of case-insensitive
regex matches over the fields, or the empty filter when the term is falsy
(`undefined` or the empty string). -/
def buildSearchFilter (searchTerm : Option String) (searchFields : List String) : JDoc :=
  match searchTerm with
  | none => []
  | some t => if t = "" then [] else [("$or", JVal.orRegex searchFields t)]

/-- The normalized pagination triple returned by `getPaginationParams`. -/
structure Pagination where
  page : Int
  limit : Int
  skip : Int
deriving DecidableEq, Repr

/-- `getPaginationParams(query)`:
`page = Math.max(1, parseInt(query.page) || 1)`,
`limit = Math.min(100, Math.max(1, parseInt(query.limit) || 10))`,
`skip = (page - 1) * limit`. -/
def getPaginationParams (pageQ limitQ : Option String) : Pagination :=
  let page := max 1 (jsOrElse (jsParseIntOpt pageQ) 1)
  let limit := min 100 (max 1 (jsOrElse (jsParseIntOpt limitQ) 10))
  { page := page, limit := limit, skip := (page - 1) * limit }

/-- The pagination envelope metadata
(`{ pagination: { total, page, limit, pages } }`). -/
structure Envelope where
  total : Int
  page : Int
  limit : Int
  pages : Int
deriving DecidableEq, Repr

/-- `formatPaginationResponse(data, total, page, limit)`: the metadata part
(`data` is passed through unchanged alongside it); `pages = Math.ceil(total / limit)`. -/
def formatPaginationResponse (total page limit : Int) : Envelope :=
  { total := total, page := page, limit := limit, pages := ceilDiv total limit }

/-- The store-layer error classes distinguished by `handleDBError`. -/
inductive DBError where
  | validationErr (detail : String)
  | castErr
  | duplicateKey (field : String)
  | other (msg : String)
deriving DecidableEq, Repr

/-- `handleDBError(error, res)`: status and error message per error class. -/
def handleDBError : DBError → Int × String
  | .validationErr _ => (400, "Validation failed")
  | .castErr => (400, "Invalid ID format")
  | .duplicateKey field => (400, field ++ " must be unique")
  | .other _ => (500, "Database operation failed")

/-- `isValidObjectId(id)`: 24 hexadecimal characters. -/
def isValidObjectId (id : String) : Bool :=
  id.length = 24 &&
    id.data.all (fun c => c.isDigit || ('a' ≤ c && c ≤ 'f') || ('A' ≤ c && c ≤ 'F'))

/-! ## `routes/members.js` -/

/-- Raw query parameters of `GET /members`. -/
structure MembersListQuery where
  page : Option String
  limit : Option String
  role : Option String
  search : Option String
  isActive : Option String
deriving DecidableEq, Repr

/-- Everything a list handler feeds to the store and to its response
envelope: the filter document, the `skip`/`limit` arguments (JS numbers,
`none` = `NaN`), and the envelope metadata. -/
structure ListOutcome where
  filter : JDoc
  skip : Option Int
  limitArg : Option Int
  envTotal : Int
  envPage : Option Int
  envLimit : Option Int
  envPages : Option Int
deriving DecidableEq, Repr

/-- The inline computation of `GET /members`: destructuring defaults
`page = 1, limit = 10`, string-coerced `skip = (page - 1) * limit`, ad-hoc
filter construction, `.limit(parseInt(limit))`, and the inline envelope. -/
def membersListInline (q : MembersListQuery) (total : Int) : ListOutcome :=
  let pageRaw := jprimOfQuery q.page 1
  let limitRaw := jprimOfQuery q.limit 10
  let f1 : JDoc := if truthyStr q.role then [("role", JVal.str (q.role.getD ""))] else []
  let f2 : JDoc := f1 ++
    (match q.isActive with
     | none => []
     | some a => [("isActive", JVal.bool (a = "true"))])
  let f3 : JDoc := f2 ++
    (if truthyStr q.search then
       [("$or", JVal.orRegex ["name", "email", "studentId"] (q.search.getD ""))]
     else [])
  { filter := f3
    skip := jsMul (jsSub (jsToNumberPrim pageRaw) (some 1)) (jsToNumberPrim limitRaw)
    limitArg := jsParseIntPrim limitRaw
    envTotal := total
    envPage := jsParseIntPrim pageRaw
    envLimit := jsParseIntPrim limitRaw
    envPages := jsCeilDiv (some total) (jsToNumberPrim limitRaw) }

/-- The members query parameters as the lookup function `buildFilter` takes. -/
def membersQueryLookup (q : MembersListQuery) : String → Option String := fun k =>
  if k = "role" then q.role
  else if k = "isActive" then q.isActive
  else none

/-- The same list request computed by composing the `dbUtils` helpers
(`buildFilter` + `buildSearchFilter` + `getPaginationParams` +
`formatPaginationResponse`). -/
def membersListViaUtils (q : MembersListQuery) (total : Int) : ListOutcome :=
  let p := getPaginationParams q.page q.limit
  let env := formatPaginationResponse total p.page p.limit
  { filter := buildFilter (membersQueryLookup q) ["role", "isActive"] ++
      buildSearchFilter q.search ["name", "email", "studentId"]
    skip := some p.skip
    limitArg := some p.limit
    envTotal := env.total
    envPage := some env.page
    envLimit := some env.limit
    envPages := some env.pages }

/-- `findOne({ email })`: first stored member whose `email` field equals the
raw query string. -/
def findOneByEmail (db : List JDoc) (email : String) : Option JDoc :=
  db.find? (fun d => decide (getKey d "email" = some (JVal.str email)))

/-- Outcome of `POST /members/login`. -/
structure LoginResult where
  status : Int
  message : String
  user : Option JDoc
deriving DecidableEq, Repr

/-- The stored hash `user.password` handed to `bcrypt.compare`. -/
def storedPasswordHash (user : JDoc) : String :=
  match getKey user "password" with
  | some (.str h) => h
  | _ => ""

/-- `POST /members/login`, parameterised by the one-way comparison
`bcrypt.compare` (`verify plaintext storedHash`).  Missing (falsy) email or
password gives 400; an unknown email and a failed comparison both give the
same 401 response. -/
def login (verify : String → String → Bool) (db : List JDoc) (email password : String) :
    LoginResult :=
  if email = "" ∨ password = "" then
    { status := 400, message := "Email and password are required", user := none }
  else
    match findOneByEmail db email with
    | none => { status := 401, message := "Invalid email or password", user := none }
    | some user =>
        if verify password (storedPasswordHash user) then
          { status := 200, message := "login successful", user := some (removeKey user "password") }
        else
          { status := 401, message := "Invalid email or password", user := none }

/-- Outcome of a registration request. -/
structure RegResult where
  status : Int
  body : String
deriving DecidableEq, Repr

/-- The schema's `lowercase: true` setter (character-wise lowercasing). -/
def lowerStr (s : String) : String :=
  String.mk (s.data.map Char.toLower)

/-- The member document built by `POST /members/register/student`; the schema's
`lowercase: true` setter normalises the email on assignment. -/
def mkStudentDoc (name email hashedPassword studentId department phone address : String) : JDoc :=
  [("name", JVal.str name), ("email", JVal.str email),
   ("password", JVal.str hashedPassword), ("role", JVal.str "student"),
   ("studentId", JVal.str studentId), ("department", JVal.str department),
   ("phone", JVal.str phone), ("address", JVal.str address)]

/-- `POST /members/register/student`, parameterised by `bcrypt.hash`.
Sequence: falsy required field → 400; `findOne({email})` hit → 400; otherwise
`save()`, on which the store's unique index on the (lowercased) email either
rejects with a duplicate-key error (caught → 400) or inserts (201). -/
def registerStudent (hash : String → String) (db : List JDoc)
    (name email password studentId department phone address : String) :
    RegResult × List JDoc :=
  if name = "" ∨ email = "" ∨ password = "" ∨ studentId = "" then
    ({ status := 400, body := "Missing required fields: name, email, password, studentId" }, db)
  else
    match findOneByEmail db email with
    | some _ => ({ status := 400, body := "Email already registered" }, db)
    | none =>
        let doc := mkStudentDoc name (lowerStr email) (hash password) studentId department phone address
        if db.any (fun d => decide (getKey d "email" = some (JVal.str (lowerStr email)))) then
          ({ status := 400, body := "E11000 duplicate key error" }, db)
        else
          ({ status := 201, body := "Student registered successfully" }, db ++ [doc])

/-- Outcome of a by-id request: status plus the response document, if any. -/
structure UpdateResult where
  status : Int
  body : Option JDoc
deriving DecidableEq, Repr

/-- The fields `PUT /members/:id/student` copies from the request body
(object-literal order; absent fields are `undefined` and stripped from the
update). -/
def studentUpdateKeys : List String :=
  ["studentId", "department", "phone", "address", "name", "email"]

/-- The fields `PUT /members/:id/patron` copies from the request body. -/
def patronUpdateKeys : List String := ["phone", "address", "name", "email"]

/-- Restrict a request body to the listed keys, in the listed order, keeping
only those actually present. -/
def presentFields (body : JDoc) (ks : List String) : JDoc :=
  ks.foldl
    (fun u k =>
      match getKey body k with
      | some v => u ++ [(k, v)]
      | none => u)
    []

/-- `PUT /members/:id/student`: `findByIdAndUpdate` runs first, then the role
of the (already updated) document is checked.  Returns the response and the
document as stored after the request (`none` when the id matched nothing). -/
def putMemberStudent (target : Option JDoc) (body : JDoc) : UpdateResult × Option JDoc :=
  match target with
  | none => ({ status := 404, body := none }, none)
  | some member =>
      let updated := applyUpdate member (presentFields body studentUpdateKeys)
      if getKey updated "role" = some (JVal.str "student") then
        ({ status := 200, body := some (omitKeys updated ["password", "__v"]) }, some updated)
      else
        ({ status := 400, body := none }, some updated)

/-- `PUT /members/:id/patron`: same update-then-check shape with the patron
field list and role. -/
def putMemberPatron (target : Option JDoc) (body : JDoc) : UpdateResult × Option JDoc :=
  match target with
  | none => ({ status := 404, body := none }, none)
  | some member =>
      let updated := applyUpdate member (presentFields body patronUpdateKeys)
      if getKey updated "role" = some (JVal.str "patron") then
        ({ status := 200, body := some (omitKeys updated ["password", "__v"]) }, some updated)
      else
        ({ status := 400, body := none }, some updated)

/-- `PUT /members/:id`: `const { password, ...updateData } = req.body` strips
the password, then the rest is applied. -/
def putMember (target : Option JDoc) (body : JDoc) : UpdateResult × Option JDoc :=
  match target with
  | none => ({ status := 404, body := none }, none)
  | some member =>
      let updated := applyUpdate member (removeKey body "password")
      ({ status := 200, body := some (omitKeys updated ["password", "__v"]) }, some updated)

/-! ## By-id lookups and cast errors

`findById` on a string that casts to no ObjectId (neither 24 hexadecimal
characters nor a 12-character string) throws a `CastError`; the store is a
list of id/document pairs. `none` models the thrown error, `some none` a
miss, `some (some d)` a hit. -/

def findByIdResolve (db : List (String × JDoc)) (id : String) : Option (Option JDoc) :=
  if isValidObjectId id || id.length = 12 then
    some ((db.find? (fun e => decide (e.1 = id))).map (·.2))
  else none

/-- `GET /members/:id`: the handler's own `catch` maps any thrown error
(including a `CastError`) to status 500. -/
def getMemberById (db : List (String × JDoc)) (id : String) : UpdateResult :=
  match findByIdResolve db id with
  | none => { status := 500, body := none }
  | some none => { status := 404, body := none }
  | some (some m) => { status := 200, body := some (omitKeys m ["password", "__v"]) }

/-- `GET /books/:id`: same shape, projecting away only `__v`. -/
def getBookById (db : List (String × JDoc)) (id : String) : UpdateResult :=
  match findByIdResolve db id with
  | none => { status := 500, body := none }
  | some none => { status := 404, body := none }
  | some (some b) => { status := 200, body := some (omitKeys b ["__v"]) }

/-- `GET /loans/:id`: same shape (population of the references happens on the
found document and cannot change the status). -/
def getLoanById (db : List (String × JDoc)) (id : String) : UpdateResult :=
  match findByIdResolve db id with
  | none => { status := 500, body := none }
  | some none => { status := 404, body := none }
  | some (some l) => { status := 200, body := some (omitKeys l ["__v"]) }

/-- `DELETE /members/:id` (and identically the book/loan delete handlers):
`findByIdAndDelete` inside a `catch` that maps thrown errors to 500. -/
def deleteMemberById (db : List (String × JDoc)) (id : String) :
    UpdateResult × List (String × JDoc) :=
  match findByIdResolve db id with
  | none => ({ status := 500, body := none }, db)
  | some none => ({ status := 404, body := none }, db)
  | some (some _) => ({ status := 200, body := none }, db.filter (fun e => decide (¬ e.1 = id)))

/-! ## `routes/books.js` -/

/-- Raw query parameters of `GET /books`. -/
structure BooksListQuery where
  page : Option String
  limit : Option String
  category : Option String
  available : Option String
  search : Option String
deriving DecidableEq, Repr

/-- The inline computation of `GET /books`. -/
def booksListInline (q : BooksListQuery) (total : Int) : ListOutcome :=
  let pageRaw := jprimOfQuery q.page 1
  let limitRaw := jprimOfQuery q.limit 10
  let f1 : JDoc := if truthyStr q.category then [("category", JVal.str (q.category.getD ""))] else []
  let f2 : JDoc := f1 ++
    (match q.available with
     | none => []
     | some a => [("available", JVal.bool (a = "true"))])
  let f3 : JDoc := f2 ++
    (if truthyStr q.search then
       [("$or", JVal.orRegex ["title", "author"] (q.search.getD ""))]
     else [])
  { filter := f3
    skip := jsMul (jsSub (jsToNumberPrim pageRaw) (some 1)) (jsToNumberPrim limitRaw)
    limitArg := jsParseIntPrim limitRaw
    envTotal := total
    envPage := jsParseIntPrim pageRaw
    envLimit := jsParseIntPrim limitRaw
    envPages := jsCeilDiv (some total) (jsToNumberPrim limitRaw) }

/-- The books query parameters as a lookup function. -/
def booksQueryLookup (q : BooksListQuery) : String → Option String := fun k =>
  if k = "category" then q.category
  else if k = "available" then q.available
  else none

/-- `GET /books` computed by composing the `dbUtils` helpers. -/
def booksListViaUtils (q : BooksListQuery) (total : Int) : ListOutcome :=
  let p := getPaginationParams q.page q.limit
  let env := formatPaginationResponse total p.page p.limit
  { filter := buildFilter (booksQueryLookup q) ["category", "available"] ++
      buildSearchFilter q.search ["title", "author"]
    skip := some p.skip
    limitArg := some p.limit
    envTotal := env.total
    envPage := some env.page
    envLimit := some env.limit
    envPages := some env.pages }

/-! ## `routes/loans.js` -/

/-- Raw query parameters of `GET /loans`. -/
structure LoansListQuery where
  page : Option String
  limit : Option String
  returned : Option String
  userId : Option String
  bookId : Option String
  isOverdue : Option String
deriving DecidableEq, Repr

/-- The inline computation of `GET /loans` (no free-text search). -/
def loansListInline (q : LoansListQuery) (total : Int) : ListOutcome :=
  let pageRaw := jprimOfQuery q.page 1
  let limitRaw := jprimOfQuery q.limit 10
  let f1 : JDoc :=
    match q.returned with
    | none => []
    | some a => [("returned", JVal.bool (a = "true"))]
  let f2 : JDoc := f1 ++
    (if truthyStr q.userId then [("userId", JVal.str (q.userId.getD ""))] else [])
  let f3 : JDoc := f2 ++
    (if truthyStr q.bookId then [("bookId", JVal.str (q.bookId.getD ""))] else [])
  let f4 : JDoc := f3 ++
    (match q.isOverdue with
     | none => []
     | some a => [("isOverdue", JVal.bool (a = "true"))])
  { filter := f4
    skip := jsMul (jsSub (jsToNumberPrim pageRaw) (some 1)) (jsToNumberPrim limitRaw)
    limitArg := jsParseIntPrim limitRaw
    envTotal := total
    envPage := jsParseIntPrim pageRaw
    envLimit := jsParseIntPrim limitRaw
    envPages := jsCeilDiv (some total) (jsToNumberPrim limitRaw) }

/-- The loans query parameters as a lookup function. -/
def loansQueryLookup (q : LoansListQuery) : String → Option String := fun k =>
  if k = "returned" then q.returned
  else if k = "userId" then q.userId
  else if k = "bookId" then q.bookId
  else if k = "isOverdue" then q.isOverdue
  else none

/-- `GET /loans` computed by composing the `dbUtils` helpers (the loans
endpoint has no searchable fields, so the search contribution is empty). -/
def loansListViaUtils (q : LoansListQuery) (total : Int) : ListOutcome :=
  let p := getPaginationParams q.page q.limit
  let env := formatPaginationResponse total p.page p.limit
  { filter := buildFilter (loansQueryLookup q) ["returned", "userId", "bookId", "isOverdue"] ++
      buildSearchFilter none []
    skip := some p.skip
    limitArg := some p.limit
    envTotal := env.total
    envPage := some env.page
    envLimit := some env.limit
    envPages := some env.pages }

/-- The paths of the `Borrowed` schema; `new Borrowed(body)` and update
casting keep only these. -/
def loanSchemaKeys : List String :=
  ["userId", "bookId", "borrowDate", "dueDate", "returnDate", "returned", "isOverdue"]

/-- Set a field to a default value only when it is absent (a schema
`default`). -/
def setIfAbsent (doc : JDoc) (k : String) (v : JVal) : JDoc :=
  if getKey doc k = none then setKey doc k v else doc

/-- The `Borrowed` schema defaults: `borrowDate: Date.now`,
`returned: false`, `isOverdue: false`, each applied only when the field is
absent. -/
def applyLoanDefaults (now : JVal) (doc : JDoc) : JDoc :=
  setIfAbsent (setIfAbsent (setIfAbsent doc "borrowDate" now)
    "returned" (JVal.bool false)) "isOverdue" (JVal.bool false)

/-- `POST /loans`: `new Borrowed(req.body)` (schema keys only, defaults
filled in) then `save()`; a missing required `userId`/`bookId`/`dueDate`
raises a validation error caught as 400. -/
def postLoan (now : JVal) (body : JDoc) : Int × Option JDoc :=
  let doc := applyLoanDefaults now (pickKeys body loanSchemaKeys)
  if getKey doc "userId" = none ∨ getKey doc "bookId" = none ∨ getKey doc "dueDate" = none then
    (400, none)
  else (201, some doc)

/-- `PUT /loans/:id`: `findByIdAndUpdate(id, req.body, { new: true })` — the
whole (schema-cast) body is applied, whatever the loan's current state. -/
def putLoan (target : Option JDoc) (body : JDoc) : Int × Option JDoc :=
  match target with
  | none => (404, none)
  | some loan => (200, some (applyUpdate loan (pickKeys body loanSchemaKeys)))

/-! ## Read projections carrying member data -/

/-- `.select('-password -__v')` used by `GET /members` and `GET /members/:id`
and by the member-update responses. -/
def memberReadProjection (doc : JDoc) : JDoc := omitKeys doc ["password", "__v"]

/-- `populate('userId', 'name email studentId role')` used by `GET /loans`
and `GET /loans/:id`. -/
def loanUserProjection (doc : JDoc) : JDoc := pickKeys doc ["name", "email", "studentId", "role"]

/-- `populate('userId', 'name email')` used by `POST /loans` and
`PUT /loans/:id`. -/
def loanUserShortProjection (doc : JDoc) : JDoc := pickKeys doc ["name", "email"]

/-- `populate('userId', 'name email phone')` used by
`GET /loans/reports/overdue`. -/
def loanUserOverdueProjection (doc : JDoc) : JDoc := pickKeys doc ["name", "email", "phone"]

/-- `const { password: _, ...userWithoutPassword } = user` in the login
handler. -/
def loginUserBody (user : JDoc) : JDoc := removeKey user "password"

/-! ## Further helper lemmas -/

theorem getKey_pickKeys (doc : JDoc) (ks : List String) (k : String) :
    getKey (pickKeys doc ks) k = if k ∈ ks then getKey doc k else none := by
  induction doc with
  | nil => simp [pickKeys]
  | cons kv rest ih =>
      by_cases hc : kv.1 ∈ ks
      · by_cases hk : kv.1 = k
        · subst hk
          simp [pickKeys, hc]
        · simp [pickKeys, hc, hk, ih]
      · by_cases hk : kv.1 = k
        · subst hk
          simp [pickKeys, hc, ih]
        · simp [pickKeys, hc, hk, ih]

theorem removeKey_sublist (doc : JDoc) (k : String) : List.Sublist (removeKey doc k) doc := by
  induction doc with
  | nil => exact List.Sublist.refl []
  | cons kv rest ih =>
      by_cases hk : kv.1 = k
      · simp only [removeKey, hk, if_true]
        exact List.Sublist.cons kv ih
      · simp only [removeKey, hk, if_false]
        exact List.Sublist.cons₂ kv ih

theorem pickKeys_sublist (doc : JDoc) (ks : List String) : List.Sublist (pickKeys doc ks) doc := by
  induction doc with
  | nil => exact List.Sublist.refl []
  | cons kv rest ih =>
      by_cases hc : kv.1 ∈ ks
      · simp only [pickKeys, hc, if_true]
        exact List.Sublist.cons₂ kv ih
      · simp only [pickKeys, hc, if_false]
        exact List.Sublist.cons kv ih

theorem keys_nodup_removeKey (doc : JDoc) (k : String) (h : (keys doc).Nodup) :
    (keys (removeKey doc k)).Nodup := by
  simp only [keys] at h ⊢
  exact List.Nodup.sublist ((removeKey_sublist doc k).map (·.1)) h

theorem keys_nodup_pickKeys (doc : JDoc) (ks : List String) (h : (keys doc).Nodup) :
    (keys (pickKeys doc ks)).Nodup := by
  simp only [keys] at h ⊢
  exact List.Nodup.sublist ((pickKeys_sublist doc ks).map (·.1)) h

theorem mem_removeKey_of_ne (doc : JDoc) (k kr : String) (v : JVal)
    (h : (k, v) ∈ doc) (hne : k ≠ kr) : (k, v) ∈ removeKey doc kr := by
  induction doc with
  | nil => cases h
  | cons kv rest ih =>
      rcases List.mem_cons.mp h with h1 | h2
      · subst h1
        simp [removeKey, hne]
      · by_cases hk : kv.1 = kr
        · simp only [removeKey, hk, if_true]
          exact ih h2
        · simp only [removeKey, hk, if_false]
          exact List.mem_cons_of_mem kv (ih h2)

theorem mem_pickKeys_of_mem (doc : JDoc) (ks : List String) (k : String) (v : JVal)
    (h : (k, v) ∈ doc) (hk : k ∈ ks) : (k, v) ∈ pickKeys doc ks := by
  induction doc with
  | nil => cases h
  | cons kv rest ih =>
      rcases List.mem_cons.mp h with h1 | h2
      · subst h1
        simp [pickKeys, hk]
      · by_cases hc : kv.1 ∈ ks
        · simp only [pickKeys, hc, if_true]
          exact List.mem_cons_of_mem kv (ih h2)
        · simp only [pickKeys, hc, if_false]
          exact ih h2

theorem getKey_mem (doc : JDoc) (k : String) (v : JVal)
    (h : getKey doc k = some v) : (k, v) ∈ doc := by
  induction doc with
  | nil => simp [getKey] at h
  | cons kv rest ih =>
      by_cases hk : kv.1 = k
      · simp only [getKey_cons, hk, if_true, Option.some.injEq] at h
        subst h
        rw [← hk]
        exact List.mem_cons_self kv rest
      · simp only [getKey_cons, hk, if_false] at h
        exact List.mem_cons_of_mem kv (ih h)

theorem getKey_mkStudentDoc_email (n e hp s d p a : String) :
    getKey (mkStudentDoc n e hp s d p a) "email" = some (JVal.str e) := by
  simp [mkStudentDoc, getKey]

theorem getKey_setIfAbsent_ne (doc : JDoc) (k k' : String) (v : JVal) (h : k' ≠ k) :
    getKey (setIfAbsent doc k v) k' = getKey doc k' := by
  unfold setIfAbsent
  split_ifs with hb
  · exact getKey_setKey_ne doc k k' v h
  · rfl

theorem getKey_setIfAbsent_absent (doc : JDoc) (k : String) (v : JVal)
    (h : getKey doc k = none) : getKey (setIfAbsent doc k v) k = some v := by
  unfold setIfAbsent
  rw [if_pos h]
  exact getKey_setKey_self doc k v

theorem getKey_buildFilter_foldl (qp : String → Option String) (allowed : List String)
    (init : JDoc) (k : String) :
    getKey (allowed.foldl (buildFilterStep qp) init) k =
      if k ∈ allowed ∧ (qp k).isSome then (qp k).map coerceBoolStr else getKey init k := by
  induction allowed generalizing init with
  | nil => simp
  | cons a rest ih =>
      rw [List.foldl_cons, ih]
      by_cases ha : a = k
      · subst ha
        cases hqp : qp a with
        | none => simp [buildFilterStep, hqp]
        | some v =>
            by_cases hr : a ∈ rest
            · simp [buildFilterStep, hqp, hr]
            · simp [buildFilterStep, hqp, hr, getKey_setKey_self]
      · have hcons : (k ∈ a :: rest ∧ (qp k).isSome) ↔ (k ∈ rest ∧ (qp k).isSome) := by
          constructor
          · rintro ⟨h1, h2⟩
            rcases List.mem_cons.mp h1 with h | h
            · exact absurd h.symm ha
            · exact ⟨h, h2⟩
          · rintro ⟨h1, h2⟩
            exact ⟨List.mem_cons_of_mem a h1, h2⟩
        simp only [hcons]
        by_cases hmem : k ∈ rest ∧ (qp k).isSome
        · simp [hmem]
        · rw [if_neg hmem, if_neg hmem]
          cases hqp : qp a with
          | none => simp [buildFilterStep, hqp]
          | some v =>
              simp only [buildFilterStep, hqp]
              exact getKey_setKey_ne init a k (coerceBoolStr v) (Ne.symm ha)

/-- Full characterisation of `buildFilter`: a key is present in the output
iff it is in the allow-list and defined in the input, and its value is the
boolean-coerced input value. -/
theorem getKey_buildFilter (qp : String → Option String) (allowed : List String) (k : String) :
    getKey (buildFilter qp allowed) k =
      if k ∈ allowed then (qp k).map coerceBoolStr else none := by
  rw [buildFilter, getKey_buildFilter_foldl]
  by_cases hk : k ∈ allowed
  · cases hqp : qp k with
    | none => simp [hk, hqp]
    | some v => simp [hk, hqp]
  · simp [hk]

/-! ## Machinery for the handler/utility refinement claim -/

/-- A page parameter that is absent or a string parsing (consistently under
`parseInt` and `Number`) to an integer ≥ 1. -/
def goodPageInput (q : Option String) : Prop :=
  q = none ∨ ∃ s n, q = some s ∧ jsParseInt s = some n ∧ jsToNumber s = some n ∧ 1 ≤ n

/-- A limit parameter that is absent or a string parsing to an integer in
[1, 100]. -/
def goodLimitInput (q : Option String) : Prop :=
  q = none ∨ ∃ s n, q = some s ∧ jsParseInt s = some n ∧ jsToNumber s = some n ∧
    1 ≤ n ∧ n ≤ 100

/-- A string filter parameter that is absent or a non-empty,
non-boolean-looking string. -/
def goodStrParam (q : Option String) : Prop :=
  q = none ∨ ∃ s, q = some s ∧ s ≠ "" ∧ s ≠ "true" ∧ s ≠ "false"

/-- A boolean filter parameter that is absent, `'true'`, or `'false'`. -/
def goodBoolParam (q : Option String) : Prop :=
  q = none ∨ q = some "true" ∨ q = some "false"

theorem pagination_inline_matches (pageQ limitQ : Option String) (total : Int)
    (hp : goodPageInput pageQ) (hl : goodLimitInput limitQ) :
    jsMul (jsSub (jsToNumberPrim (jprimOfQuery pageQ 1)) (some 1))
        (jsToNumberPrim (jprimOfQuery limitQ 10)) =
      some (getPaginationParams pageQ limitQ).skip ∧
    jsParseIntPrim (jprimOfQuery limitQ 10) = some (getPaginationParams pageQ limitQ).limit ∧
    jsParseIntPrim (jprimOfQuery pageQ 1) = some (getPaginationParams pageQ limitQ).page ∧
    jsCeilDiv (some total) (jsToNumberPrim (jprimOfQuery limitQ 10)) =
      some (ceilDiv total (getPaginationParams pageQ limitQ).limit) := by
  obtain ⟨P, hPt, hPp, hPv, hP1⟩ :
      ∃ P, jsToNumberPrim (jprimOfQuery pageQ 1) = some P ∧
        jsParseIntPrim (jprimOfQuery pageQ 1) = some P ∧
        (getPaginationParams pageQ limitQ).page = P ∧ 1 ≤ P := by
    rcases hp with h | ⟨s, n, hq, hpi, htn, hn⟩
    · subst h
      exact ⟨1, rfl, rfl, by simp [getPaginationParams, jsParseIntOpt, jsOrElse], le_refl 1⟩
    · subst hq
      have hn0 : ¬ n = 0 := by omega
      refine ⟨n, by simp [jsToNumberPrim, jprimOfQuery, htn],
        by simp [jsParseIntPrim, jprimOfQuery, hpi], ?_, hn⟩
      have hres : jsOrElse (jsParseIntOpt (some s)) 1 = n := by
        simp [jsParseIntOpt, hpi, jsOrElse, hn0]
      show max 1 (jsOrElse (jsParseIntOpt (some s)) 1) = n
      rw [hres]
      exact max_eq_right hn
  obtain ⟨L, hLt, hLp, hLv, hL1, hL100⟩ :
      ∃ L, jsToNumberPrim (jprimOfQuery limitQ 10) = some L ∧
        jsParseIntPrim (jprimOfQuery limitQ 10) = some L ∧
        (getPaginationParams pageQ limitQ).limit = L ∧ 1 ≤ L ∧ L ≤ 100 := by
    rcases hl with h | ⟨s, n, hq, hpi, htn, hn1, hn100⟩
    · subst h
      refine ⟨10, rfl, rfl,
        by simp [getPaginationParams, jsParseIntOpt, jsOrElse], by norm_num, by norm_num⟩
    · subst hq
      have hn0 : ¬ n = 0 := by omega
      refine ⟨n, by simp [jsToNumberPrim, jprimOfQuery, htn],
        by simp [jsParseIntPrim, jprimOfQuery, hpi], ?_, hn1, hn100⟩
      have hres : jsOrElse (jsParseIntOpt (some s)) 10 = n := by
        simp [jsParseIntOpt, hpi, jsOrElse, hn0]
      show min 100 (max 1 (jsOrElse (jsParseIntOpt (some s)) 10)) = n
      rw [hres, max_eq_right hn1]
      exact min_eq_right hn100
  have hL0 : ¬ L = 0 := by omega
  have hskip : (getPaginationParams pageQ limitQ).skip = (P - 1) * L := by
    have hs : (getPaginationParams pageQ limitQ).skip =
        ((getPaginationParams pageQ limitQ).page - 1) *
          (getPaginationParams pageQ limitQ).limit := rfl
    rw [hs, hPv, hLv]
  refine ⟨?_, ?_, ?_, ?_⟩
  · rw [hPt, hLt, hskip]
    rfl
  · rw [hLp, hLv]
  · rw [hPp, hPv]
  · rw [hLt, hLv]
    simp [jsCeilDiv, hL0]

/-- The contribution of one allow-listed field to a `buildFilter` result. -/
def optEntry (qp : String → Option String) (k : String) : JDoc :=
  match qp k with
  | none => []
  | some v => [(k, coerceBoolStr v)]

@[simp] theorem keys_append (a b : JDoc) : keys (a ++ b) = keys a ++ keys b := by
  simp [keys]

theorem setKey_not_mem (doc : JDoc) (k : String) (v : JVal) (h : ¬ k ∈ keys doc) :
    setKey doc k v = doc ++ [(k, v)] := by
  induction doc with
  | nil => rfl
  | cons kv rest ih =>
      simp only [keys, List.map_cons, List.mem_cons] at h
      push_neg at h
      rw [setKey, if_neg (fun hh => h.1 hh.symm)]
      rw [ih (by simpa [keys] using h.2)]
      rfl

theorem buildFilterStep_fresh (qp : String → Option String) (d : JDoc) (k : String)
    (h : ¬ k ∈ keys d) : buildFilterStep qp d k = d ++ optEntry qp k := by
  cases hq : qp k with
  | none => simp [buildFilterStep, hq, optEntry]
  | some v => simp [buildFilterStep, hq, optEntry, setKey_not_mem d k _ h]

theorem mem_keys_optEntry (qp : String → Option String) (k k' : String)
    (h : k' ∈ keys (optEntry qp k)) : k' = k := by
  cases hq : qp k with
  | none => simp [optEntry, hq, keys] at h
  | some v =>
      simp [optEntry, hq, keys] at h
      exact h

theorem buildFilter_two (qp : String → Option String) (k₁ k₂ : String) (h21 : ¬ k₂ = k₁) :
    buildFilter qp [k₁, k₂] = optEntry qp k₁ ++ optEntry qp k₂ := by
  have s1 : buildFilterStep qp [] k₁ = optEntry qp k₁ := by
    simpa using buildFilterStep_fresh qp [] k₁ (by simp [keys])
  have s2 : buildFilterStep qp (optEntry qp k₁) k₂ = optEntry qp k₁ ++ optEntry qp k₂ :=
    buildFilterStep_fresh qp _ k₂ (fun h => h21 (mem_keys_optEntry qp k₁ k₂ h))
  calc buildFilter qp [k₁, k₂]
      = buildFilterStep qp (buildFilterStep qp [] k₁) k₂ := rfl
    _ = optEntry qp k₁ ++ optEntry qp k₂ := by rw [s1, s2]

theorem buildFilter_four (qp : String → Option String) (k₁ k₂ k₃ k₄ : String)
    (h21 : ¬ k₂ = k₁) (h31 : ¬ k₃ = k₁) (h32 : ¬ k₃ = k₂)
    (h41 : ¬ k₄ = k₁) (h42 : ¬ k₄ = k₂) (h43 : ¬ k₄ = k₃) :
    buildFilter qp [k₁, k₂, k₃, k₄] =
      optEntry qp k₁ ++ optEntry qp k₂ ++ optEntry qp k₃ ++ optEntry qp k₄ := by
  have s1 : buildFilterStep qp [] k₁ = optEntry qp k₁ := by
    simpa using buildFilterStep_fresh qp [] k₁ (by simp [keys])
  have s2 : buildFilterStep qp (optEntry qp k₁) k₂ = optEntry qp k₁ ++ optEntry qp k₂ :=
    buildFilterStep_fresh qp _ k₂ (fun h => h21 (mem_keys_optEntry qp k₁ k₂ h))
  have f3 : ¬ k₃ ∈ keys (optEntry qp k₁ ++ optEntry qp k₂) := by
    intro h
    rw [keys_append] at h
    rcases List.mem_append.mp h with h | h
    · exact h31 (mem_keys_optEntry _ _ _ h)
    · exact h32 (mem_keys_optEntry _ _ _ h)
  have s3 := buildFilterStep_fresh qp (optEntry qp k₁ ++ optEntry qp k₂) k₃ f3
  have f4 : ¬ k₄ ∈ keys ((optEntry qp k₁ ++ optEntry qp k₂) ++ optEntry qp k₃) := by
    intro h
    rw [keys_append] at h
    rcases List.mem_append.mp h with h | h
    · rw [keys_append] at h
      rcases List.mem_append.mp h with h | h
      · exact h41 (mem_keys_optEntry _ _ _ h)
      · exact h42 (mem_keys_optEntry _ _ _ h)
    · exact h43 (mem_keys_optEntry _ _ _ h)
  have s4 := buildFilterStep_fresh qp ((optEntry qp k₁ ++ optEntry qp k₂) ++ optEntry qp k₃) k₄ f4
  calc buildFilter qp [k₁, k₂, k₃, k₄]
      = buildFilterStep qp (buildFilterStep qp (buildFilterStep qp
          (buildFilterStep qp [] k₁) k₂) k₃) k₄ := rfl
    _ = ((optEntry qp k₁ ++ optEntry qp k₂) ++ optEntry qp k₃) ++ optEntry qp k₄ := by
          rw [s1, s2, s3, s4]
    _ = optEntry qp k₁ ++ optEntry qp k₂ ++ optEntry qp k₃ ++ optEntry qp k₄ := by
          simp [List.append_assoc]

theorem membersList_inline_eq_utils (q : MembersListQuery) (total : Int)
    (hrole : goodStrParam q.role) (hact : goodBoolParam q.isActive)
    (hp : goodPageInput q.page) (hl : goodLimitInput q.limit) :
    membersListInline q total = membersListViaUtils q total := by
  obtain ⟨hskip, hlim, hpage, hpages⟩ := pagination_inline_matches q.page q.limit total hp hl
  have hq1 : membersQueryLookup q "role" = q.role := by simp [membersQueryLookup]
  have hq2 : membersQueryLookup q "isActive" = q.isActive := by simp [membersQueryLookup]
  have e1 : (if truthyStr q.role then [("role", JVal.str (q.role.getD ""))] else []) =
      optEntry (membersQueryLookup q) "role" := by
    rcases hrole with h | ⟨s, hq, hs0, hst, hsf⟩
    · simp [h, truthyStr, optEntry, hq1]
    · simp [hq, truthyStr, hs0, optEntry, hq1, coerceBoolStr, hst, hsf]
  have e2 : (match q.isActive with
      | none => ([] : JDoc)
      | some a => [("isActive", JVal.bool (a = "true"))]) =
      optEntry (membersQueryLookup q) "isActive" := by
    rcases hact with h | h | h <;> simp [h, optEntry, hq2, coerceBoolStr]
  have e3 : (if truthyStr q.search then
      [("$or", JVal.orRegex ["name", "email", "studentId"] (q.search.getD ""))]
      else ([] : JDoc)) = buildSearchFilter q.search ["name", "email", "studentId"] := by
    rcases hqs : q.search with _ | s
    · simp [truthyStr, buildSearchFilter]
    · by_cases hs : s = ""
      · simp [truthyStr, hs, buildSearchFilter]
      · simp [truthyStr, hs, buildSearchFilter]
  have hfil : ((if truthyStr q.role then [("role", JVal.str (q.role.getD ""))] else []) ++
      (match q.isActive with
       | none => ([] : JDoc)
       | some a => [("isActive", JVal.bool (a = "true"))])) ++
      (if truthyStr q.search then
        [("$or", JVal.orRegex ["name", "email", "studentId"] (q.search.getD ""))]
       else ([] : JDoc)) =
      buildFilter (membersQueryLookup q) ["role", "isActive"] ++
        buildSearchFilter q.search ["name", "email", "studentId"] := by
    rw [buildFilter_two _ _ _ (by decide), e1, e2, e3]
  simp only [membersListInline, membersListViaUtils, ListOutcome.mk.injEq]
  exact ⟨hfil, hskip, hlim, rfl, hpage, hlim, hpages⟩

theorem booksList_inline_eq_utils (q : BooksListQuery) (total : Int)
    (hcat : goodStrParam q.category) (hav : goodBoolParam q.available)
    (hp : goodPageInput q.page) (hl : goodLimitInput q.limit) :
    booksListInline q total = booksListViaUtils q total := by
  obtain ⟨hskip, hlim, hpage, hpages⟩ := pagination_inline_matches q.page q.limit total hp hl
  have hq1 : booksQueryLookup q "category" = q.category := by simp [booksQueryLookup]
  have hq2 : booksQueryLookup q "available" = q.available := by simp [booksQueryLookup]
  have e1 : (if truthyStr q.category then [("category", JVal.str (q.category.getD ""))] else []) =
      optEntry (booksQueryLookup q) "category" := by
    rcases hcat with h | ⟨s, hq, hs0, hst, hsf⟩
    · simp [h, truthyStr, optEntry, hq1]
    · simp [hq, truthyStr, hs0, optEntry, hq1, coerceBoolStr, hst, hsf]
  have e2 : (match q.available with
      | none => ([] : JDoc)
      | some a => [("available", JVal.bool (a = "true"))]) =
      optEntry (booksQueryLookup q) "available" := by
    rcases hav with h | h | h <;> simp [h, optEntry, hq2, coerceBoolStr]
  have e3 : (if truthyStr q.search then
      [("$or", JVal.orRegex ["title", "author"] (q.search.getD ""))]
      else ([] : JDoc)) = buildSearchFilter q.search ["title", "author"] := by
    rcases hqs : q.search with _ | s
    · simp [truthyStr, buildSearchFilter]
    · by_cases hs : s = ""
      · simp [truthyStr, hs, buildSearchFilter]
      · simp [truthyStr, hs, buildSearchFilter]
  have hfil : ((if truthyStr q.category then [("category", JVal.str (q.category.getD ""))]
      else []) ++
      (match q.available with
       | none => ([] : JDoc)
       | some a => [("available", JVal.bool (a = "true"))])) ++
      (if truthyStr q.search then
        [("$or", JVal.orRegex ["title", "author"] (q.search.getD ""))]
       else ([] : JDoc)) =
      buildFilter (booksQueryLookup q) ["category", "available"] ++
        buildSearchFilter q.search ["title", "author"] := by
    rw [buildFilter_two _ _ _ (by decide), e1, e2, e3]
  simp only [booksListInline, booksListViaUtils, ListOutcome.mk.injEq]
  exact ⟨hfil, hskip, hlim, rfl, hpage, hlim, hpages⟩

theorem loansList_inline_eq_utils (q : LoansListQuery) (total : Int)
    (hret : goodBoolParam q.returned) (huid : goodStrParam q.userId)
    (hbid : goodStrParam q.bookId) (hov : goodBoolParam q.isOverdue)
    (hp : goodPageInput q.page) (hl : goodLimitInput q.limit) :
    loansListInline q total = loansListViaUtils q total := by
  obtain ⟨hskip, hlim, hpage, hpages⟩ := pagination_inline_matches q.page q.limit total hp hl
  have hq1 : loansQueryLookup q "returned" = q.returned := by simp [loansQueryLookup]
  have hq2 : loansQueryLookup q "userId" = q.userId := by simp [loansQueryLookup]
  have hq3 : loansQueryLookup q "bookId" = q.bookId := by simp [loansQueryLookup]
  have hq4 : loansQueryLookup q "isOverdue" = q.isOverdue := by simp [loansQueryLookup]
  have e1 : (match q.returned with
      | none => ([] : JDoc)
      | some a => [("returned", JVal.bool (a = "true"))]) =
      optEntry (loansQueryLookup q) "returned" := by
    rcases hret with h | h | h <;> simp [h, optEntry, hq1, coerceBoolStr]
  have e2 : (if truthyStr q.userId then [("userId", JVal.str (q.userId.getD ""))] else []) =
      optEntry (loansQueryLookup q) "userId" := by
    rcases huid with h | ⟨s, hq, hs0, hst, hsf⟩
    · simp [h, truthyStr, optEntry, hq2]
    · simp [hq, truthyStr, hs0, optEntry, hq2, coerceBoolStr, hst, hsf]
  have e3 : (if truthyStr q.bookId then [("bookId", JVal.str (q.bookId.getD ""))] else []) =
      optEntry (loansQueryLookup q) "bookId" := by
    rcases hbid with h | ⟨s, hq, hs0, hst, hsf⟩
    · simp [h, truthyStr, optEntry, hq3]
    · simp [hq, truthyStr, hs0, optEntry, hq3, coerceBoolStr, hst, hsf]
  have e4 : (match q.isOverdue with
      | none => ([] : JDoc)
      | some a => [("isOverdue", JVal.bool (a = "true"))]) =
      optEntry (loansQueryLookup q) "isOverdue" := by
    rcases hov with h | h | h <;> simp [h, optEntry, hq4, coerceBoolStr]
  have hfil : (((match q.returned with
      | none => ([] : JDoc)
      | some a => [("returned", JVal.bool (a = "true"))]) ++
      (if truthyStr q.userId then [("userId", JVal.str (q.userId.getD ""))] else [])) ++
      (if truthyStr q.bookId then [("bookId", JVal.str (q.bookId.getD ""))] else [])) ++
      (match q.isOverdue with
       | none => ([] : JDoc)
       | some a => [("isOverdue", JVal.bool (a = "true"))]) =
      buildFilter (loansQueryLookup q) ["returned", "userId", "bookId", "isOverdue"] ++
        buildSearchFilter none [] := by
    rw [buildFilter_four _ _ _ _ _ (by decide) (by decide) (by decide) (by decide) (by decide)
      (by decide), e1, e2, e3, e4]
    simp [buildSearchFilter, List.append_assoc]
  simp only [loansListInline, loansListViaUtils, ListOutcome.mk.injEq]
  exact ⟨hfil, hskip, hlim, rfl, hpage, hlim, hpages⟩

/-! ## Concrete fixtures used by counterexamples and witnesses -/

/-- A stored member with role `patron`. -/
def patronJane : JDoc :=
  [("name", JVal.str "Jane Patron"), ("email", JVal.str "jane@example.com"),
   ("password", JVal.str "hash1"), ("role", JVal.str "patron")]

/-- A stored member with role `student`. -/
def studentBob : JDoc :=
  [("name", JVal.str "Bob Student"), ("email", JVal.str "bob@example.com"),
   ("password", JVal.str "hash2"), ("role", JVal.str "student"),
   ("studentId", JVal.str "STU002")]

/-- A stored member used by the login and projection witnesses. -/
def memberAda : JDoc :=
  [("name", JVal.str "Ada"), ("email", JVal.str "ada@example.com"),
   ("password", JVal.str "secret-hash"), ("role", JVal.str "student")]

/-- A concrete instance of the one-way comparison function. -/
def verifyEq : String → String → Bool := fun p h => p = h

/-- A loan sitting in the `returned` state. -/
def returnedLoan : JDoc :=
  [("userId", JVal.str "u1"), ("bookId", JVal.str "b1"),
   ("borrowDate", JVal.str "2026-01-01"), ("dueDate", JVal.str "2026-02-01"),
   ("returnDate", JVal.str "2026-02-05"), ("returned", JVal.bool true),
   ("isOverdue", JVal.bool false)]

/-- A member and a generic-update body for the password-frame witness. -/
def memberCarol : JDoc :=
  [("name", JVal.str "Carol"), ("password", JVal.str "oldhash"),
   ("role", JVal.str "patron")]

/-- A `PUT /members/:id` body that tries to overwrite the password. -/
def carolUpdateBody : JDoc :=
  [("password", JVal.str "evil"), ("name", JVal.str "Carol Updated")]

/-! ## Claims -/

/-- C1 (code bug): `PUT /members/:id/student` against a member whose role is
`patron` does return 400 ("User is not a student"), but only after
`findByIdAndUpdate` has already applied the body, so the stored record is
mutated; symmetrically for `PUT /members/:id/patron` against a student.  The
spec (and the route's own rejection message) say the record is left
unchanged. -/
theorem roleRestricted_update_mutates_despite_400 :
    (putMemberStudent (some patronJane) [("name", JVal.str "Renamed")]).1.status = 400 ∧
    getKey ((putMemberStudent (some patronJane) [("name", JVal.str "Renamed")]).2.getD [])
      "name" = some (JVal.str "Renamed") ∧
    getKey patronJane "name" = some (JVal.str "Jane Patron") ∧
    (putMemberPatron (some studentBob) [("name", JVal.str "Renamed")]).1.status = 400 ∧
    getKey ((putMemberPatron (some studentBob) [("name", JVal.str "Renamed")]).2.getD [])
      "name" = some (JVal.str "Renamed") := by
  decide

/-- C2: `getPaginationParams` returns exactly
`page = max(1, (parseInt page) or 1)`,
`limit = min(100, max(1, (parseInt limit) or 10))` (where `or` is the
JavaScript falsy fallback) and `skip = (page - 1) * limit`, for every raw
input including absent, negative, zero, non-numeric and over-100 values;
hence the returned page is always ≥ 1 and the returned limit lies in
[1, 100]. -/
theorem getPaginationParams_normalizes (pageQ limitQ : Option String) :
    getPaginationParams pageQ limitQ =
      { page := max 1 (jsOrElse (jsParseIntOpt pageQ) 1)
        limit := min 100 (max 1 (jsOrElse (jsParseIntOpt limitQ) 10))
        skip := (max 1 (jsOrElse (jsParseIntOpt pageQ) 1) - 1) *
          min 100 (max 1 (jsOrElse (jsParseIntOpt limitQ) 10)) } ∧
    1 ≤ (getPaginationParams pageQ limitQ).page ∧
    1 ≤ (getPaginationParams pageQ limitQ).limit ∧
    (getPaginationParams pageQ limitQ).limit ≤ 100 ∧
    (getPaginationParams pageQ limitQ).skip =
      ((getPaginationParams pageQ limitQ).page - 1) * (getPaginationParams pageQ limitQ).limit := by
  refine ⟨rfl, le_max_left _ _, le_min (by norm_num) (le_max_left _ _), min_le_left _ _, rfl⟩

/-- The query of C3's counterexample: `GET /members?limit=500`. -/
def overLimitQuery : MembersListQuery :=
  { page := none, limit := some "500", role := none, search := none, isActive := none }

/-- C3 counterexample: on `GET /members?limit=500` the inline handler passes
`limit = 500` straight to the store while the utility composition clamps it
to 100 — the handler does not equal the composition of the reusable
utilities and does not honor the resolver's `limit ≤ 100` normalization. -/
theorem listHandler_ignores_limit_clamp :
    (membersListInline overLimitQuery 0).limitArg = some 500 ∧
    (membersListViaUtils overLimitQuery 0).limitArg = some 100 ∧
    ¬ membersListInline overLimitQuery 0 = membersListViaUtils overLimitQuery 0 := by
  decide

/-- C3 amended: the list handlers compute their filter, search predicate,
skip/limit and envelope inline, and this inline computation equals the
composition of `buildFilter`, `buildSearchFilter`, `getPaginationParams` and
`formatPaginationResponse` only on well-formed parameters — filter values
that are absent, boolean-looking (`'true'`/`'false'`) where the handler
coerces booleans, or non-empty non-boolean strings where it passes strings
through, and page/limit strings that parse to integers already inside the
resolver's normalized ranges (page ≥ 1, 1 ≤ limit ≤ 100).  Outside those
ranges the handlers diverge from the utilities (no clamping), as the
counterexample shows. -/
theorem listHandlers_equal_utils_on_wellformed (qm : MembersListQuery)
    (qb : BooksListQuery) (ql : LoansListQuery) (tm tb tl : Int)
    (h1 : goodStrParam qm.role) (h2 : goodBoolParam qm.isActive)
    (h3 : goodPageInput qm.page) (h4 : goodLimitInput qm.limit)
    (h5 : goodStrParam qb.category) (h6 : goodBoolParam qb.available)
    (h7 : goodPageInput qb.page) (h8 : goodLimitInput qb.limit)
    (h9 : goodBoolParam ql.returned) (h10 : goodStrParam ql.userId)
    (h11 : goodStrParam ql.bookId) (h12 : goodBoolParam ql.isOverdue)
    (h13 : goodPageInput ql.page) (h14 : goodLimitInput ql.limit) :
    membersListInline qm tm = membersListViaUtils qm tm ∧
    booksListInline qb tb = booksListViaUtils qb tb ∧
    loansListInline ql tl = loansListViaUtils ql tl :=
  ⟨membersList_inline_eq_utils qm tm h1 h2 h3 h4,
   booksList_inline_eq_utils qb tb h5 h6 h7 h8,
   loansList_inline_eq_utils ql tl h9 h10 h11 h12 h13 h14⟩

/-- Witness for C3's amended statement at concrete well-formed requests. -/
theorem listHandlers_equal_utils_witness :
    membersListInline
        { page := some "2", limit := some "5", role := some "student",
          search := some "jo", isActive := some "true" } 12 =
      membersListViaUtils
        { page := some "2", limit := some "5", role := some "student",
          search := some "jo", isActive := some "true" } 12 ∧
    booksListInline
        { page := none, limit := some "100", category := some "Fiction",
          available := some "false", search := none } 7 =
      booksListViaUtils
        { page := none, limit := some "100", category := some "Fiction",
          available := some "false", search := none } 7 ∧
    loansListInline
        { page := some "3", limit := none, returned := some "false",
          userId := some "507f1f77bcf86cd799439011", bookId := none,
          isOverdue := some "true" } 31 =
      loansListViaUtils
        { page := some "3", limit := none, returned := some "false",
          userId := some "507f1f77bcf86cd799439011", bookId := none,
          isOverdue := some "true" } 31 :=
  listHandlers_equal_utils_on_wellformed _ _ _ 12 7 31
    (Or.inr ⟨"student", rfl, by decide, by decide, by decide⟩)
    (Or.inr (Or.inl rfl))
    (Or.inr ⟨"2", 2, rfl, by decide, by decide, by decide⟩)
    (Or.inr ⟨"5", 5, rfl, by decide, by decide, by decide, by decide⟩)
    (Or.inr ⟨"Fiction", rfl, by decide, by decide, by decide⟩)
    (Or.inr (Or.inr rfl))
    (Or.inl rfl)
    (Or.inr ⟨"100", 100, rfl, by decide, by decide, by decide, by decide⟩)
    (Or.inr (Or.inr rfl))
    (Or.inr ⟨"507f1f77bcf86cd799439011", rfl, by decide, by decide, by decide⟩)
    (Or.inl rfl)
    (Or.inr (Or.inl rfl))
    (Or.inr ⟨"3", 3, rfl, by decide, by decide, by decide⟩)
    (Or.inl rfl)

/-- C4: the `buildFilter` output contains only allow-listed keys that are
defined in the input; `'true'`/`'false'` values become booleans and every
other value passes through unchanged; keys outside the allow-list never
appear. -/
theorem buildFilter_allowlist_and_coercion (qp : String → Option String)
    (allowed : List String) (k : String) :
    (getKey (buildFilter qp allowed) k =
      if k ∈ allowed then (qp k).map coerceBoolStr else none) ∧
    (∀ v, getKey (buildFilter qp allowed) k = some v →
      k ∈ allowed ∧ ∃ raw, qp k = some raw ∧ v = coerceBoolStr raw) ∧
    (¬ k ∈ allowed → getKey (buildFilter qp allowed) k = none) ∧
    coerceBoolStr "true" = JVal.bool true ∧
    coerceBoolStr "false" = JVal.bool false ∧
    (∀ raw, raw ≠ "true" → raw ≠ "false" → coerceBoolStr raw = JVal.str raw) := by
  have hchar := getKey_buildFilter qp allowed k
  refine ⟨hchar, ?_, ?_, by decide, by decide, ?_⟩
  · intro v hv
    rw [hchar] at hv
    by_cases hk : k ∈ allowed
    · rw [if_pos hk] at hv
      cases hqp : qp k with
      | none => rw [hqp] at hv; simp at hv
      | some raw =>
          rw [hqp] at hv
          simp only [Option.map_some'] at hv
          injection hv with hv
          exact ⟨hk, raw, rfl, hv.symm⟩
    · rw [if_neg hk] at hv
      simp at hv
  · intro hk
    rw [hchar, if_neg hk]
  · intro raw h1 h2
    simp [coerceBoolStr, h1, h2]

/-- Witness for C4: at a concrete query, the non-allow-listed `password`
parameter is absent from the filter. -/
theorem buildFilter_allowlist_witness :
    getKey (buildFilter
      (fun k => if k = "isActive" then some "true"
                else if k = "password" then some "x" else none)
      ["role", "isActive"]) "password" = none :=
  (buildFilter_allowlist_and_coercion
    (fun k => if k = "isActive" then some "true"
              else if k = "password" then some "x" else none)
    ["role", "isActive"] "password").2.2.1 (by decide)

/-- C5: for non-empty credentials, a login whose email matches no member and
a login whose email matches a member but whose password comparison fails
produce the same response: 401 with message "Invalid email or password". -/
theorem login_unknown_email_eq_wrong_password (verify : String → String → Bool)
    (db₁ db₂ : List JDoc) (e₁ p₁ e₂ p₂ : String) (u : JDoc)
    (he₁ : e₁ ≠ "") (hp₁ : p₁ ≠ "") (he₂ : e₂ ≠ "") (hp₂ : p₂ ≠ "")
    (hmiss : findOneByEmail db₁ e₁ = none)
    (hhit : findOneByEmail db₂ e₂ = some u)
    (hbad : verify p₂ (storedPasswordHash u) = false) :
    login verify db₁ e₁ p₁ = login verify db₂ e₂ p₂ ∧
    login verify db₁ e₁ p₁ =
      { status := 401, message := "Invalid email or password", user := none } := by
  have h1 : login verify db₁ e₁ p₁ =
      { status := 401, message := "Invalid email or password", user := none } := by
    simp [login, he₁, hp₁, hmiss]
  have h2 : login verify db₂ e₂ p₂ =
      { status := 401, message := "Invalid email or password", user := none } := by
    simp [login, he₂, hp₂, hhit, hbad]
  exact ⟨h1.trans h2.symm, h1⟩

/-- Witness for C5 at concrete stores and credentials. -/
theorem login_uniform_witness :
    login verifyEq [] "ghost@example.com" "pw" =
      login verifyEq [memberAda] "ada@example.com" "wrong" ∧
    login verifyEq [] "ghost@example.com" "pw" =
      { status := 401, message := "Invalid email or password", user := none } :=
  login_unknown_email_eq_wrong_password verifyEq [] [memberAda]
    "ghost@example.com" "pw" "ada@example.com" "wrong" memberAda
    (by decide) (by decide) (by decide) (by decide)
    (by decide) (by decide) (by decide)

/-- C7 counterexample: `GET /members/:id` with the malformed id "abc"
returns 500, not 400 — the handler's own catch block maps the cast error to
500 and never calls `handleDBError`. -/
theorem getById_malformed_id_gives_500 :
    (getMemberById [] "abc").status = 500 ∧
    ¬ (getMemberById [] "abc").status = 400 ∧
    isValidObjectId "abc" = false := by
  decide

/-- C7 amended: on an id that casts to no ObjectId, the GET-by-id and
DELETE-by-id handlers return 500 (their catch blocks map every thrown error
to 500); only the unused `handleDBError` utility maps a cast error to 400. -/
theorem castError_status_by_route (db : List (String × JDoc)) (id : String)
    (h : (isValidObjectId id || id.length = 12) = false) :
    (getMemberById db id).status = 500 ∧
    (getBookById db id).status = 500 ∧
    (getLoanById db id).status = 500 ∧
    (deleteMemberById db id).1.status = 500 ∧
    handleDBError DBError.castErr = (400, "Invalid ID format") := by
  simp [getMemberById, getBookById, getLoanById, deleteMemberById, findByIdResolve, h,
    handleDBError]

/-- Witness for C7's amended statement at the concrete malformed id "xyz". -/
theorem castError_status_by_route_witness :
    (getMemberById [] "xyz").status = 500 ∧
    (getBookById [] "xyz").status = 500 ∧
    (getLoanById [] "xyz").status = 500 ∧
    (deleteMemberById [] "xyz").1.status = 500 ∧
    handleDBError DBError.castErr = (400, "Invalid ID format") :=
  castError_status_by_route [] "xyz" (by decide)

/-- C8 counterexample: `PUT /loans/:id` with body `{returned: false}` moves a
returned loan back to `returned = false` (there is a transition out of
`returned`), and `POST /loans` with a body that sets `returned: true` creates
a loan that does not start with `returned = false`. -/
theorem loan_state_claims_fail :
    getKey ((putLoan (some returnedLoan) [("returned", JVal.bool false)]).2.getD [])
      "returned" = some (JVal.bool false) ∧
    (putLoan (some returnedLoan) [("returned", JVal.bool false)]).1 = 200 ∧
    getKey returnedLoan "returned" = some (JVal.bool true) ∧
    (postLoan JVal.null [("userId", JVal.str "u1"), ("bookId", JVal.str "b1"),
      ("dueDate", JVal.str "2026-03-01"), ("returned", JVal.bool true)]).1 = 201 ∧
    getKey ((postLoan JVal.null [("userId", JVal.str "u1"), ("bookId", JVal.str "b1"),
      ("dueDate", JVal.str "2026-03-01"), ("returned", JVal.bool true)]).2.getD [])
      "returned" = some (JVal.bool true) := by
  decide

/-- C8 amended: a loan created by `POST /loans` starts with
`returned = false` and `isOverdue = false` whenever the request body does not
itself set those fields; and `PUT /loans/:id` applies the body
unconditionally, so whatever value the body assigns to `returned` (including
`false` on a returned loan) becomes the stored value — the `returned` state
is not preserved by this layer. -/
theorem loan_lifecycle_amended (now : JVal) (body loan upd : JDoc) (v : JVal)
    (hret : getKey body "returned" = none) (hov : getKey body "isOverdue" = none)
    (hnd : (keys upd).Nodup) (hv : getKey upd "returned" = some v) :
    (∀ doc, (postLoan now body).2 = some doc →
      getKey doc "returned" = some (JVal.bool false) ∧
      getKey doc "isOverdue" = some (JVal.bool false)) ∧
    getKey ((putLoan (some loan) upd).2.getD []) "returned" = some v := by
  constructor
  · intro doc hdoc
    have hpick_ret : getKey (pickKeys body loanSchemaKeys) "returned" = none := by
      rw [getKey_pickKeys]
      simp [loanSchemaKeys, hret]
    have hpick_ov : getKey (pickKeys body loanSchemaKeys) "isOverdue" = none := by
      rw [getKey_pickKeys]
      simp [loanSchemaKeys, hov]
    have hdef : doc = applyLoanDefaults now (pickKeys body loanSchemaKeys) := by
      by_cases hreq : getKey (applyLoanDefaults now (pickKeys body loanSchemaKeys)) "userId" = none ∨
          getKey (applyLoanDefaults now (pickKeys body loanSchemaKeys)) "bookId" = none ∨
          getKey (applyLoanDefaults now (pickKeys body loanSchemaKeys)) "dueDate" = none
      · simp [postLoan, hreq] at hdoc
      · simp [postLoan, hreq] at hdoc
        exact hdoc.symm
    subst hdef
    unfold applyLoanDefaults
    constructor
    · rw [getKey_setIfAbsent_ne _ _ _ _ (by decide)]
      refine getKey_setIfAbsent_absent _ _ _ ?_
      rw [getKey_setIfAbsent_ne _ _ _ _ (by decide)]
      exact hpick_ret
    · refine getKey_setIfAbsent_absent _ _ _ ?_
      rw [getKey_setIfAbsent_ne _ _ _ _ (by decide),
        getKey_setIfAbsent_ne _ _ _ _ (by decide)]
      exact hpick_ov
  · have hmem : ("returned", v) ∈ pickKeys upd loanSchemaKeys :=
      mem_pickKeys_of_mem upd loanSchemaKeys "returned" v (getKey_mem upd "returned" v hv)
        (by decide)
    have := getKey_applyUpdate_mem loan (pickKeys upd loanSchemaKeys) "returned" v
      (keys_nodup_pickKeys upd loanSchemaKeys hnd) hmem
    simpa [putLoan] using this

/-- Witness for C8's amended statement at concrete loans and bodies. -/
theorem loan_lifecycle_amended_witness :
    getKey ((postLoan JVal.null [("userId", JVal.str "u1"), ("bookId", JVal.str "b1"),
        ("dueDate", JVal.str "2026-03-01")]).2.getD []) "returned" = some (JVal.bool false) ∧
    getKey ((putLoan (some returnedLoan) [("returned", JVal.bool false)]).2.getD [])
      "returned" = some (JVal.bool false) := by
  have h := loan_lifecycle_amended JVal.null
    [("userId", JVal.str "u1"), ("bookId", JVal.str "b1"), ("dueDate", JVal.str "2026-03-01")]
    returnedLoan [("returned", JVal.bool false)] (JVal.bool false)
    (by decide) (by decide) (by decide) (by decide)
  refine ⟨?_, h.2⟩
  exact (h.1 _ (by decide)).1

/-- C10: `PUT /members/:id` strips any `password` field from the body before
applying the update, so the stored hash is unchanged while every other
supplied field is updated. -/
theorem putMember_discards_password (member body : JDoc) (hnd : (keys body).Nodup) :
    (putMember (some member) body).2 =
      some (applyUpdate member (removeKey body "password")) ∧
    getKey (applyUpdate member (removeKey body "password")) "password" =
      getKey member "password" ∧
    (∀ k v, k ≠ "password" → (k, v) ∈ body →
      getKey (applyUpdate member (removeKey body "password")) k = some v) := by
  refine ⟨rfl, ?_, ?_⟩
  · exact getKey_applyUpdate_not_mem _ _ _ (keys_removeKey body "password")
  · intro k v hk hmem
    exact getKey_applyUpdate_mem _ _ _ _ (keys_nodup_removeKey body "password" hnd)
      (mem_removeKey_of_ne body k "password" v hmem hk)

/-- Witness for C10: Carol's password hash survives an update that tries to
overwrite it, while her name is updated. -/
theorem putMember_discards_password_witness :
    getKey (applyUpdate memberCarol (removeKey carolUpdateBody "password")) "password" =
      getKey memberCarol "password" ∧
    getKey (applyUpdate memberCarol (removeKey carolUpdateBody "password")) "name" =
      some (JVal.str "Carol Updated") :=
  ⟨(putMember_discards_password memberCarol carolUpdateBody (by decide)).2.1,
   (putMember_discards_password memberCarol carolUpdateBody (by decide)).2.2
     "name" (JVal.str "Carol Updated") (by decide) (by decide)⟩

/-- C6: no read path that returns member data includes the `password` field:
the list/by-id/update projections (`-password -__v`), the loan `populate`
projections of `userId`, and the login response body all exclude it. -/
theorem password_excluded_from_reads (doc : JDoc) :
    (¬ "password" ∈ keys (memberReadProjection doc)) ∧
    (¬ "password" ∈ keys (loanUserProjection doc)) ∧
    (¬ "password" ∈ keys (loanUserShortProjection doc)) ∧
    (¬ "password" ∈ keys (loanUserOverdueProjection doc)) ∧
    (¬ "password" ∈ keys (loginUserBody doc)) ∧
    (∀ db id m, (getMemberById db id).body = some m → ¬ "password" ∈ keys m) ∧
    (∀ t b m, ((putMember t b).1).body = some m → ¬ "password" ∈ keys m) ∧
    (∀ t b m, ((putMemberStudent t b).1).body = some m → ¬ "password" ∈ keys m) ∧
    (∀ t b m, ((putMemberPatron t b).1).body = some m → ¬ "password" ∈ keys m) ∧
    (∀ verify db e p u, (login verify db e p).user = some u → ¬ "password" ∈ keys u) := by
  refine ⟨keys_omitKeys_not_mem doc _ _ (by decide),
    fun h => by simpa using keys_pickKeys_mem doc _ _ h,
    fun h => by simpa using keys_pickKeys_mem doc _ _ h,
    fun h => by simpa using keys_pickKeys_mem doc _ _ h,
    keys_removeKey doc "password",
    ?_, ?_, ?_, ?_, ?_⟩
  · intro db id m h
    cases hfr : findByIdResolve db id with
    | none => simp [getMemberById, hfr] at h
    | some o =>
        cases o with
        | none => simp [getMemberById, hfr] at h
        | some m0 =>
            simp only [getMemberById, hfr] at h
            injection h with h
            exact h ▸ keys_omitKeys_not_mem m0 _ _ (by decide)
  · intro t b m h
    cases t with
    | none => simp [putMember] at h
    | some member =>
        simp only [putMember] at h
        injection h with h
        exact h ▸ keys_omitKeys_not_mem _ _ _ (by decide)
  · intro t b m h
    cases t with
    | none => simp [putMemberStudent] at h
    | some member =>
        by_cases hrole : getKey (applyUpdate member (presentFields b studentUpdateKeys))
            "role" = some (JVal.str "student")
        · simp only [putMemberStudent, hrole, if_pos] at h
          injection h with h
          exact h ▸ keys_omitKeys_not_mem _ _ _ (by decide)
        · simp [putMemberStudent, hrole] at h
  · intro t b m h
    cases t with
    | none => simp [putMemberPatron] at h
    | some member =>
        by_cases hrole : getKey (applyUpdate member (presentFields b patronUpdateKeys))
            "role" = some (JVal.str "patron")
        · simp only [putMemberPatron, hrole, if_pos] at h
          injection h with h
          exact h ▸ keys_omitKeys_not_mem _ _ _ (by decide)
        · simp [putMemberPatron, hrole] at h
  · intro verify db e p u h
    by_cases hcred : e = "" ∨ p = ""
    · simp [login, hcred] at h
    · cases hfo : findOneByEmail db e with
      | none => simp [login, hcred, hfo] at h
      | some user =>
          by_cases hv : verify p (storedPasswordHash user) = true
          · simp only [login, hcred, if_neg, hfo, hv, if_pos] at h
            injection h with h
            exact h ▸ keys_removeKey user "password"
          · simp [login, hcred, hfo, hv] at h

/-- Witness for C6: the login projection of a concrete member, and a concrete
`GET /members/:id` response, both lack the `password` key. -/
theorem password_excluded_witness :
    (¬ "password" ∈ keys (loginUserBody memberAda)) ∧
    (¬ "password" ∈ keys (omitKeys memberAda ["password", "__v"])) :=
  ⟨(password_excluded_from_reads memberAda).2.2.2.2.1,
   (password_excluded_from_reads []).2.2.2.2.2.1
     [("507f1f77bcf86cd799439011", memberAda)] "507f1f77bcf86cd799439011"
     (omitKeys memberAda ["password", "__v"]) (by decide)⟩

/-- C9: two registrations whose emails agree up to letter case, against an
empty member collection, give exactly one 201 and one 400 in either
submission order: the second request either hits the `findOne({email})`
pre-check (when its raw email equals the stored lowercased one) or the
store's case-normalised unique index (duplicate-key error, caught as 400). -/
theorem register_duplicate_email_one_success (hash : String → String)
    (n₁ e₁ p₁ s₁ d₁ ph₁ a₁ n₂ e₂ p₂ s₂ d₂ ph₂ a₂ : String)
    (hn₁ : n₁ ≠ "") (he₁ : e₁ ≠ "") (hp₁ : p₁ ≠ "") (hs₁ : s₁ ≠ "")
    (hn₂ : n₂ ≠ "") (he₂ : e₂ ≠ "") (hp₂ : p₂ ≠ "") (hs₂ : s₂ ≠ "")
    (hdup : lowerStr e₁ = lowerStr e₂) :
    (registerStudent hash [] n₁ e₁ p₁ s₁ d₁ ph₁ a₁).1.status = 201 ∧
    (registerStudent hash (registerStudent hash [] n₁ e₁ p₁ s₁ d₁ ph₁ a₁).2
      n₂ e₂ p₂ s₂ d₂ ph₂ a₂).1.status = 400 := by
  have hdb : (registerStudent hash [] n₁ e₁ p₁ s₁ d₁ ph₁ a₁).2 =
      [mkStudentDoc n₁ (lowerStr e₁) (hash p₁) s₁ d₁ ph₁ a₁] := by
    simp [registerStudent, hn₁, he₁, hp₁, hs₁, findOneByEmail]
  have hfirst : (registerStudent hash [] n₁ e₁ p₁ s₁ d₁ ph₁ a₁).1.status = 201 := by
    simp [registerStudent, hn₁, he₁, hp₁, hs₁, findOneByEmail]
  refine ⟨hfirst, ?_⟩
  rw [hdb]
  by_cases hc : lowerStr e₁ = e₂
  · have hfo : findOneByEmail [mkStudentDoc n₁ (lowerStr e₁) (hash p₁) s₁ d₁ ph₁ a₁] e₂ =
        some (mkStudentDoc n₁ (lowerStr e₁) (hash p₁) s₁ d₁ ph₁ a₁) := by
      simp [findOneByEmail, getKey_mkStudentDoc_email, hc]
    simp [registerStudent, hn₂, he₂, hp₂, hs₂, hfo]
  · have hfo : findOneByEmail [mkStudentDoc n₁ (lowerStr e₁) (hash p₁) s₁ d₁ ph₁ a₁] e₂ =
        none := by
      simp [findOneByEmail, getKey_mkStudentDoc_email, hc]
    have hany : ([mkStudentDoc n₁ (lowerStr e₁) (hash p₁) s₁ d₁ ph₁ a₁].any
        (fun d => decide (getKey d "email" = some (JVal.str (lowerStr e₂))))) = true := by
      simp [getKey_mkStudentDoc_email, hdup]
    simp [registerStudent, hn₂, he₂, hp₂, hs₂, hfo, hany]

/-- Witness for C9 with concrete names and case-varied emails. -/
theorem register_duplicate_email_witness :
    (registerStudent id [] "Alice" "Alice@Example.com" "pw1" "STU001" "CS" "1" "here").1.status
      = 201 ∧
    (registerStudent id (registerStudent id [] "Alice" "Alice@Example.com" "pw1" "STU001"
        "CS" "1" "here").2
      "Alicia" "alice@example.com" "pw2" "STU009" "Math" "2" "there").1.status = 400 :=
  register_duplicate_email_one_success id
    "Alice" "Alice@Example.com" "pw1" "STU001" "CS" "1" "here"
    "Alicia" "alice@example.com" "pw2" "STU009" "Math" "2" "there"
    (by decide) (by decide) (by decide) (by decide)
    (by decide) (by decide) (by decide) (by decide) (by decide)

end Libra
